import Mathlib

/-!
Shallow embedding of the brachistochrone simulator's physics core from
src/app.py: the path solver `calculate_paths` (lines 40-104) and the
per-tick bead updates of the simulation loop in `main` (lines 331-367).
Python floats are modelled by real numbers; `float('inf')` for the cycloid
radius is modelled by the two-constructor type `PyFloat`; the call to
`scipy.optimize.fsolve` is modelled by an oracle argument of type
`Except Unit Real` (either a returned root `theta_b` or a raised
RuntimeError/ValueError, which line 84 catches).
-/

namespace Brach

/-- Gravity constant of src/app.py line 10: `G = 9.81 * 100`. -/
noncomputable def G : ℝ := 9.81 * 100

/-- A Python float that is either `inf` or an ordinary real value; used for
the cycloid radius `r_cycloid` (line 67 stores `float('inf')`). -/
inductive PyFloat where
  | inf : PyFloat
  | val : ℝ → PyFloat

/-- `np.isinf` on a `PyFloat` (lines 88 and 348). -/
def PyFloat.isinf : PyFloat → Bool
  | PyFloat.inf => true
  | PyFloat.val _ => false

/-- The real value carried by a finite `PyFloat`; 0 for `inf` (never read on
the `inf` branch of the code). -/
def PyFloat.toReal : PyFloat → ℝ
  | PyFloat.inf => 0
  | PyFloat.val x => x

/-- `np.sign` on a real (lines 92 and 358): -1, 0 or +1. -/
noncomputable def np_sign (x : ℝ) : ℝ :=
  if x < 0 then -1 else if 0 < x then 1 else 0

/-- The dictionary returned by `calculate_paths` (lines 99-104). -/
structure PathSolution where
  A : ℝ × ℝ
  B : ℝ × ℝ
  dx : ℝ
  dy : ℝ
  line_L : ℝ
  line_a : ℝ
  line_t : ℝ
  line_points : List (ℝ × ℝ)
  cycloid_r : PyFloat
  cycloid_theta_b : ℝ
  cycloid_t : ℝ
  cycloid_points : List (ℝ × ℝ)

/-- The cycloid polyline of lines 92-97: `thetas = np.linspace(0, theta_b, 100)`
(the i-th parameter is `theta_b * i / 99`), with
`x = xa + direction * r * (th - sin th)` and `y = ya + r * (1 - cos th)`. -/
noncomputable def cycloidSamples (A : ℝ × ℝ) (dx r theta_b : ℝ) : List (ℝ × ℝ) :=
  (List.range 100).map fun (i : ℕ) =>
    (A.1 + np_sign dx * r * (theta_b * (i : ℝ) / 99 - Real.sin (theta_b * (i : ℝ) / 99)),
     A.2 + r * (1 - Real.cos (theta_b * (i : ℝ) / 99)))

/-- `calculate_paths` (src/app.py lines 40-104).  `fsolveResult` is the oracle
standing for the `fsolve` call of lines 78-81: `Except.ok theta_b` when the
finder returns a root, `Except.error ()` when it raises one of the exceptions
caught at line 84.  The branch tuple carries
`(a_line, t_line, r_cycloid, theta_b, t_cycloid)`. -/
noncomputable def calculate_paths (A B : ℝ × ℝ) (fsolveResult : Except Unit ℝ) :
    Option PathSolution :=
  let dx := B.1 - A.1
  let dy := B.2 - A.2
  if dy ≤ 0 then none
  else
    let L := Real.sqrt (dx ^ 2 + dy ^ 2)
    let branch : Option (ℝ × ℝ × PyFloat × ℝ × ℝ) :=
      if |dx| < 1 then
        some (G, Real.sqrt (2 * L / G), PyFloat.inf, 0, Real.sqrt (2 * L / G))
      else
        let a_line := G * dy / L
        let t_line := Real.sqrt (2 * L / a_line)
        match fsolveResult with
        | Except.error _ => none
        | Except.ok theta_b =>
          let r := dy / (1 - Real.cos theta_b)
          some (a_line, t_line, PyFloat.val r, theta_b, theta_b * Real.sqrt (r / G))
    match branch with
    | none => none
    | some (a_line, t_line, r_cycloid, theta_b, t_cycloid) =>
      let line_points := [A, B]
      let cycloid_points :=
        if r_cycloid.isinf then line_points
        else cycloidSamples A dx r_cycloid.toReal theta_b
      some ⟨A, B, dx, dy, L, a_line, t_line, line_points,
            r_cycloid, theta_b, t_cycloid, cycloid_points⟩

/-- State of one bead in the simulation loop: its finished flag and its
world position (`line_finished` / `pos_line_world`, resp. the cycloid pair). -/
structure BeadState where
  finished : Bool
  pos : ℝ × ℝ

/-- One tick of the straight-line bead update (src/app.py lines 331-342).
When the bead is already finished the body is skipped (`if not line_finished`);
otherwise, while `sim_time < line_t` the position follows
`d = 0.5 * line_a * t^2`, `frac = d / line_L`, `A + frac * (dx, dy)`,
and from `line_t` on the position is set to B and the flag raised. -/
noncomputable def updateLineBead (sd : PathSolution) (simTime : ℝ) (st : BeadState) :
    BeadState :=
  if st.finished then st
  else if simTime < sd.line_t then
    let dist := 0.5 * sd.line_a * simTime ^ 2
    let frac := dist / sd.line_L
    ⟨false, (sd.A.1 + frac * sd.dx, sd.A.2 + frac * sd.dy)⟩
  else ⟨true, sd.B⟩

/-- One tick of the cycloid bead update (src/app.py lines 345-367).  While
`sim_time < cycloid_t`: on the degenerate (infinite-radius) branch the bead
falls straight down with `d = 0.5 * G * t^2`, `frac = d / dy`; on the general
branch the rolling angle is `theta_t = sim_time / sqrt (r / G)` and the
position follows the cycloid parametrisation mirrored by `np_sign dx`.
From `cycloid_t` on the position is set to B and the flag raised. -/
noncomputable def updateCycloidBead (sd : PathSolution) (simTime : ℝ) (st : BeadState) :
    BeadState :=
  if st.finished then st
  else if simTime < sd.cycloid_t then
    if sd.cycloid_r.isinf then
      let dist := 0.5 * G * simTime ^ 2
      let frac := dist / sd.dy
      ⟨false, (sd.A.1, sd.A.2 + frac * sd.dy)⟩
    else
      let r := sd.cycloid_r.toReal
      let theta_t := simTime / Real.sqrt (r / G)
      ⟨false, (sd.A.1 + np_sign sd.dx * r * (theta_t - Real.sin theta_t),
               sd.A.2 + r * (1 - Real.cos theta_t))⟩
  else ⟨true, sd.B⟩

/-- The solution record produced by the degenerate (near-vertical) branch,
lines 63-68 together with the common tail 87-104. -/
noncomputable def degenSolution (A B : ℝ × ℝ) : PathSolution :=
  { A := A, B := B, dx := B.1 - A.1, dy := B.2 - A.2,
    line_L := Real.sqrt ((B.1 - A.1) ^ 2 + (B.2 - A.2) ^ 2),
    line_a := G,
    line_t := Real.sqrt (2 * Real.sqrt ((B.1 - A.1) ^ 2 + (B.2 - A.2) ^ 2) / G),
    line_points := [A, B],
    cycloid_r := PyFloat.inf,
    cycloid_theta_b := 0,
    cycloid_t := Real.sqrt (2 * Real.sqrt ((B.1 - A.1) ^ 2 + (B.2 - A.2) ^ 2) / G),
    cycloid_points := [A, B] }

/-- The solution record produced by the general branch when the root finder
returns `theta_b`, lines 69-83 together with the common tail 87-104. -/
noncomputable def generalSolution (A B : ℝ × ℝ) (theta_b : ℝ) : PathSolution :=
  { A := A, B := B, dx := B.1 - A.1, dy := B.2 - A.2,
    line_L := Real.sqrt ((B.1 - A.1) ^ 2 + (B.2 - A.2) ^ 2),
    line_a := G * (B.2 - A.2) / Real.sqrt ((B.1 - A.1) ^ 2 + (B.2 - A.2) ^ 2),
    line_t := Real.sqrt (2 * Real.sqrt ((B.1 - A.1) ^ 2 + (B.2 - A.2) ^ 2) /
      (G * (B.2 - A.2) / Real.sqrt ((B.1 - A.1) ^ 2 + (B.2 - A.2) ^ 2))),
    line_points := [A, B],
    cycloid_r := PyFloat.val ((B.2 - A.2) / (1 - Real.cos theta_b)),
    cycloid_theta_b := theta_b,
    cycloid_t := theta_b * Real.sqrt ((B.2 - A.2) / (1 - Real.cos theta_b) / G),
    cycloid_points := cycloidSamples A (B.1 - A.1)
      ((B.2 - A.2) / (1 - Real.cos theta_b)) theta_b }

lemma G_pos : (0 : ℝ) < G := by unfold G; norm_num

lemma calculate_paths_of_dy_nonpos (A B : ℝ × ℝ) (fr : Except Unit ℝ)
    (h : B.2 - A.2 ≤ 0) : calculate_paths A B fr = none := by
  unfold calculate_paths
  simp [h]

lemma calculate_paths_degen (A B : ℝ × ℝ) (fr : Except Unit ℝ)
    (hdy : 0 < B.2 - A.2) (hdx : |B.1 - A.1| < 1) :
    calculate_paths A B fr = some (degenSolution A B) := by
  unfold calculate_paths degenSolution
  simp [not_le.mpr hdy, hdx, PyFloat.isinf]

lemma calculate_paths_general (A B : ℝ × ℝ) (theta_b : ℝ)
    (hdy : 0 < B.2 - A.2) (hdx : 1 ≤ |B.1 - A.1|) :
    calculate_paths A B (Except.ok theta_b) = some (generalSolution A B theta_b) := by
  unfold calculate_paths generalSolution
  simp [not_le.mpr hdy, not_lt.mpr hdx, PyFloat.isinf, PyFloat.toReal]

lemma calculate_paths_general_err (A B : ℝ × ℝ) (e : Unit)
    (hdy : 0 < B.2 - A.2) (hdx : 1 ≤ |B.1 - A.1|) :
    calculate_paths A B (Except.error e) = none := by
  unfold calculate_paths
  simp [not_le.mpr hdy, not_lt.mpr hdx]

lemma calculate_paths_inv (A B : ℝ × ℝ) (fr : Except Unit ℝ) (sd : PathSolution)
    (hsd : calculate_paths A B fr = some sd) :
    0 < B.2 - A.2 ∧
      ((|B.1 - A.1| < 1 ∧ sd = degenSolution A B) ∨
       (1 ≤ |B.1 - A.1| ∧ ∃ theta_b, fr = Except.ok theta_b ∧
         sd = generalSolution A B theta_b)) := by
  by_cases hdy : B.2 - A.2 ≤ 0
  · rw [calculate_paths_of_dy_nonpos A B fr hdy] at hsd
    exact absurd hsd (by simp)
  · push_neg at hdy
    refine ⟨hdy, ?_⟩
    by_cases hdx : |B.1 - A.1| < 1
    · left
      refine ⟨hdx, ?_⟩
      rw [calculate_paths_degen A B fr hdy hdx] at hsd
      exact (Option.some_injective _ hsd).symm
    · right
      push_neg at hdx
      refine ⟨hdx, ?_⟩
      match fr with
      | Except.error e =>
        rw [calculate_paths_general_err A B e hdy hdx] at hsd
        exact absurd hsd (by simp)
      | Except.ok theta_b =>
        rw [calculate_paths_general A B theta_b hdy hdx] at hsd
        exact ⟨theta_b, rfl, (Option.some_injective _ hsd).symm⟩

lemma np_sign_neg (x : ℝ) : np_sign (-x) = -np_sign x := by
  unfold np_sign
  rcases lt_trichotomy x 0 with h | h | h
  · rw [if_neg (by linarith : ¬ -x < 0), if_pos (by linarith : (0:ℝ) < -x), if_pos h]
    norm_num
  · subst h
    norm_num
  · rw [if_pos (by linarith : -x < 0), if_neg (by linarith : ¬ x < 0), if_pos h]

lemma np_sign_mul_abs (x : ℝ) : np_sign x * |x| = x := by
  unfold np_sign
  rcases lt_trichotomy x 0 with h | h | h
  · rw [if_pos h, abs_of_neg h]
    ring
  · subst h
    norm_num
  · rw [if_neg (by linarith : ¬ x < 0), if_pos h, abs_of_pos h]
    ring

/-- The concrete general-case input used by the witnesses: A = (0,0),
B = (pi, 2), for which theta_b = pi solves the transcendental equation
(pi - sin pi = (pi/2) * (1 - cos pi)). -/
noncomputable def sdPi : PathSolution :=
  generalSolution ((0 : ℝ), (0 : ℝ)) (Real.pi, 2) Real.pi

lemma sdPi_eq : calculate_paths ((0 : ℝ), (0 : ℝ)) (Real.pi, 2) (Except.ok Real.pi)
    = some sdPi := by
  apply calculate_paths_general
  · norm_num
  · simp only [sub_zero, abs_of_pos Real.pi_pos]
    linarith [Real.pi_gt_three]

lemma pi_root : Real.pi - Real.sin Real.pi
    = |Real.pi - 0| / (2 - 0) * (1 - Real.cos Real.pi) := by
  rw [Real.sin_pi, Real.cos_pi, sub_zero, abs_of_pos Real.pi_pos]
  ring

/-- Claim C1: in the general (non-degenerate) case, `calculate_paths` returns
`line_a = G * dy / L`, `line_t = sqrt (2 * L / line_a)` with
`L = sqrt (dx^2 + dy^2)`, `cycloid_r = dy / (1 - cos theta_b)` and
`cycloid_t = theta_b * sqrt (cycloid_r / G)`, where `theta_b` is the root
produced for `(theta - sin theta) = (|dx| / dy) * (1 - cos theta)`. -/
theorem solve_general_formulas (A B : ℝ × ℝ) (theta_b : ℝ) (sd : PathSolution)
    (hdy : 0 < B.2 - A.2) (hdx : 1 ≤ |B.1 - A.1|)
    (hroot : theta_b - Real.sin theta_b
      = |B.1 - A.1| / (B.2 - A.2) * (1 - Real.cos theta_b))
    (hsd : calculate_paths A B (Except.ok theta_b) = some sd) :
    sd.line_a = G * sd.dy / sd.line_L ∧
    sd.line_t = Real.sqrt (2 * sd.line_L / sd.line_a) ∧
    sd.line_L = Real.sqrt (sd.dx ^ 2 + sd.dy ^ 2) ∧
    sd.cycloid_r = PyFloat.val (sd.dy / (1 - Real.cos theta_b)) ∧
    sd.cycloid_theta_b = theta_b ∧
    sd.cycloid_t = theta_b * Real.sqrt (sd.dy / (1 - Real.cos theta_b) / G) := by
  rw [calculate_paths_general A B theta_b hdy hdx] at hsd
  cases Option.some_injective _ hsd
  exact ⟨rfl, rfl, rfl, rfl, rfl, rfl⟩

/-- Witness for C1 at A = (0,0), B = (pi, 2), theta_b = pi. -/
theorem solve_general_formulas_witness :
    sdPi.line_a = G * sdPi.dy / sdPi.line_L ∧
    sdPi.line_t = Real.sqrt (2 * sdPi.line_L / sdPi.line_a) ∧
    sdPi.line_L = Real.sqrt (sdPi.dx ^ 2 + sdPi.dy ^ 2) ∧
    sdPi.cycloid_r = PyFloat.val (sdPi.dy / (1 - Real.cos Real.pi)) ∧
    sdPi.cycloid_theta_b = Real.pi ∧
    sdPi.cycloid_t = Real.pi * Real.sqrt (sdPi.dy / (1 - Real.cos Real.pi) / G) :=
  solve_general_formulas ((0 : ℝ), (0 : ℝ)) (Real.pi, 2) Real.pi sdPi
    (by norm_num)
    (by simp only [sub_zero, abs_of_pos Real.pi_pos]; linarith [Real.pi_gt_three])
    pi_root sdPi_eq

/-- Claim C2: in the general case, a failure signal from the root finder (the
exceptions caught at line 84) makes `calculate_paths` return `none` - the
failure outcome - rather than any (partial) solution. -/
theorem solve_rootfinder_failure (A B : ℝ × ℝ) (e : Unit)
    (hdy : 0 < B.2 - A.2) (hdx : 1 ≤ |B.1 - A.1|) :
    calculate_paths A B (Except.error e) = none :=
  calculate_paths_general_err A B e hdy hdx

/-- Witness for C2 at A = (0,0), B = (2,2). -/
theorem solve_rootfinder_failure_witness :
    calculate_paths ((0 : ℝ), (0 : ℝ)) ((2 : ℝ), (2 : ℝ)) (Except.error ()) = none :=
  solve_rootfinder_failure ((0 : ℝ), (0 : ℝ)) ((2 : ℝ), (2 : ℝ)) ()
    (by norm_num) (by norm_num)

/-- Claim C3: whenever `dy = B.2 - A.2 <= 0` (B not strictly below A),
`calculate_paths` returns `none` - the failure outcome - and never any
(partially populated) solution, whatever the root-finder oracle does. -/
theorem solve_invalid_geometry (A B : ℝ × ℝ) (fr : Except Unit ℝ)
    (h : B.2 - A.2 ≤ 0) : calculate_paths A B fr = none :=
  calculate_paths_of_dy_nonpos A B fr h

/-- Witness for C3 at A = (0,0), B = (0,-100). -/
theorem solve_invalid_geometry_witness :
    calculate_paths ((0 : ℝ), (0 : ℝ)) ((0 : ℝ), (-100 : ℝ)) (Except.error ()) = none :=
  solve_invalid_geometry ((0 : ℝ), (0 : ℝ)) ((0 : ℝ), (-100 : ℝ)) (Except.error ())
    (by norm_num)

/-- Claim C4: in the degenerate case (`|dx| < 1`, the vertical-alignment
tolerance), `calculate_paths` returns `line_a = G`,
`line_t = sqrt (2 * L / G)`, `cycloid_t` exactly equal to `line_t`, an
infinite `cycloid_r`, `cycloid_theta_b = 0`, and a cycloid polyline identical
to the straight polyline `[A, B]`. -/
theorem solve_degenerate_case (A B : ℝ × ℝ) (fr : Except Unit ℝ) (sd : PathSolution)
    (hdy : 0 < B.2 - A.2) (hdx : |B.1 - A.1| < 1)
    (hsd : calculate_paths A B fr = some sd) :
    sd.line_a = G ∧
    sd.line_t = Real.sqrt (2 * sd.line_L / G) ∧
    sd.cycloid_t = sd.line_t ∧
    sd.cycloid_r = PyFloat.inf ∧
    sd.cycloid_theta_b = 0 ∧
    sd.cycloid_points = sd.line_points ∧
    sd.line_points = [A, B] := by
  rw [calculate_paths_degen A B fr hdy hdx] at hsd
  cases Option.some_injective _ hsd
  exact ⟨rfl, rfl, rfl, rfl, rfl, rfl, rfl⟩

/-- Witness for C4 at A = (0,0), B = (0,500). -/
theorem solve_degenerate_case_witness :
    (degenSolution ((0 : ℝ), (0 : ℝ)) ((0 : ℝ), (500 : ℝ))).line_a = G ∧
    (degenSolution ((0 : ℝ), (0 : ℝ)) ((0 : ℝ), (500 : ℝ))).line_t
      = Real.sqrt (2 * (degenSolution ((0 : ℝ), (0 : ℝ)) ((0 : ℝ), (500 : ℝ))).line_L / G) ∧
    (degenSolution ((0 : ℝ), (0 : ℝ)) ((0 : ℝ), (500 : ℝ))).cycloid_t
      = (degenSolution ((0 : ℝ), (0 : ℝ)) ((0 : ℝ), (500 : ℝ))).line_t ∧
    (degenSolution ((0 : ℝ), (0 : ℝ)) ((0 : ℝ), (500 : ℝ))).cycloid_r = PyFloat.inf ∧
    (degenSolution ((0 : ℝ), (0 : ℝ)) ((0 : ℝ), (500 : ℝ))).cycloid_theta_b = 0 ∧
    (degenSolution ((0 : ℝ), (0 : ℝ)) ((0 : ℝ), (500 : ℝ))).cycloid_points
      = (degenSolution ((0 : ℝ), (0 : ℝ)) ((0 : ℝ), (500 : ℝ))).line_points ∧
    (degenSolution ((0 : ℝ), (0 : ℝ)) ((0 : ℝ), (500 : ℝ))).line_points
      = [((0 : ℝ), (0 : ℝ)), ((0 : ℝ), (500 : ℝ))] :=
  solve_degenerate_case ((0 : ℝ), (0 : ℝ)) ((0 : ℝ), (500 : ℝ)) (Except.error ())
    (degenSolution ((0 : ℝ), (0 : ℝ)) ((0 : ℝ), (500 : ℝ)))
    (by norm_num) (by norm_num)
    (calculate_paths_degen ((0 : ℝ), (0 : ℝ)) ((0 : ℝ), (500 : ℝ)) (Except.error ())
      (by norm_num) (by norm_num))

/-- Claim C5: for any elapsed time at or past a path's travel time, the bead
update for that path returns exactly point B with its finished flag true, and
a bead already finished at B stays pinned there for every later query. -/
theorem sampleAt_pins_to_B (sd : PathSolution) (t1 t2 : ℝ) (st1 st2 : BeadState)
    (h1 : st1.finished = false) (h2 : st2.finished = false)
    (ht1 : sd.line_t ≤ t1) (ht2 : sd.cycloid_t ≤ t2) :
    updateLineBead sd t1 st1 = ⟨true, sd.B⟩ ∧
    updateCycloidBead sd t2 st2 = ⟨true, sd.B⟩ ∧
    (∀ t, updateLineBead sd t ⟨true, sd.B⟩ = ⟨true, sd.B⟩) ∧
    (∀ t, updateCycloidBead sd t ⟨true, sd.B⟩ = ⟨true, sd.B⟩) := by
  refine ⟨?_, ?_, ?_, ?_⟩
  · unfold updateLineBead
    simp [h1, not_lt.mpr ht1]
  · unfold updateCycloidBead
    simp [h2, not_lt.mpr ht2]
  · intro t
    unfold updateLineBead
    simp
  · intro t
    unfold updateCycloidBead
    simp

/-- A trivial concrete solution record used by sampler witnesses (with zero
travel times so that arrival holds at time 1). -/
noncomputable def sdSimple : PathSolution :=
  ⟨((0 : ℝ), (0 : ℝ)), ((1 : ℝ), (1 : ℝ)), 1, 1, 1, 1, 0,
    [((0 : ℝ), (0 : ℝ)), ((1 : ℝ), (1 : ℝ))], PyFloat.inf, 0, 0,
    [((0 : ℝ), (0 : ℝ)), ((1 : ℝ), (1 : ℝ))]⟩

/-- Witness for C5 on `sdSimple` at elapsed time 1. -/
theorem sampleAt_pins_to_B_witness :
    updateLineBead sdSimple 1 ⟨false, ((0 : ℝ), (0 : ℝ))⟩ = ⟨true, sdSimple.B⟩ ∧
    updateCycloidBead sdSimple 1 ⟨false, ((0 : ℝ), (0 : ℝ))⟩ = ⟨true, sdSimple.B⟩ := by
  have h := sampleAt_pins_to_B sdSimple 1 1 ⟨false, ((0 : ℝ), (0 : ℝ))⟩
    ⟨false, ((0 : ℝ), (0 : ℝ))⟩ rfl rfl (by norm_num [sdSimple]) (by norm_num [sdSimple])
  exact ⟨h.1, h.2.1⟩

/-- Claim C6: the sampler is total.  For any solution actually produced by
`calculate_paths` (with the root, when one is consulted, on the physical
branch `cos theta_b < 1`), every partial operation the bead updates perform is
within its domain: the divisor `line_L` is nonzero, the divisor `dy` is
nonzero, `line_a` is positive, and on the finite-radius branch the radius is
positive, the argument `r / G` of the square root is nonnegative and
`sqrt (r / G)` is nonzero - so `updateLineBead` and `updateCycloidBead`
return a well-defined position and flag for every elapsed time. -/
theorem sampleAt_total_domains (A B : ℝ × ℝ) (fr : Except Unit ℝ) (sd : PathSolution)
    (hsd : calculate_paths A B fr = some sd)
    (hok : ∀ th, fr = Except.ok th → 1 ≤ |B.1 - A.1| → Real.cos th < 1) :
    sd.line_L ≠ 0 ∧ sd.dy ≠ 0 ∧ 0 < sd.line_a ∧
    (sd.cycloid_r.isinf = false →
      0 < sd.cycloid_r.toReal ∧ 0 ≤ sd.cycloid_r.toReal / G ∧
      Real.sqrt (sd.cycloid_r.toReal / G) ≠ 0) := by
  obtain ⟨hdy, hcase⟩ := calculate_paths_inv A B fr sd hsd
  have hL : 0 < Real.sqrt ((B.1 - A.1) ^ 2 + (B.2 - A.2) ^ 2) :=
    Real.sqrt_pos.mpr (by nlinarith [sq_nonneg (B.1 - A.1), pow_pos hdy 2])
  rcases hcase with ⟨hdx, rfl⟩ | ⟨hdx, theta_b, hfr, rfl⟩
  · refine ⟨ne_of_gt hL, ne_of_gt hdy, G_pos, ?_⟩
    intro h
    simp [degenSolution, PyFloat.isinf] at h
  · have hcos := hok theta_b hfr hdx
    have h1c : 0 < 1 - Real.cos theta_b := by linarith
    have hr : 0 < (B.2 - A.2) / (1 - Real.cos theta_b) := div_pos hdy h1c
    refine ⟨ne_of_gt hL, ne_of_gt hdy, div_pos (mul_pos G_pos hdy) hL, ?_⟩
    intro _
    exact ⟨hr, le_of_lt (div_pos hr G_pos),
      ne_of_gt (Real.sqrt_pos.mpr (div_pos hr G_pos))⟩

/-- Witness for C6 on the concrete general-case solution `sdPi`. -/
theorem sampleAt_total_domains_witness :
    sdPi.line_L ≠ 0 ∧ sdPi.dy ≠ 0 ∧ 0 < sdPi.line_a ∧
    (sdPi.cycloid_r.isinf = false →
      0 < sdPi.cycloid_r.toReal ∧ 0 ≤ sdPi.cycloid_r.toReal / G ∧
      Real.sqrt (sdPi.cycloid_r.toReal / G) ≠ 0) :=
  sampleAt_total_domains ((0 : ℝ), (0 : ℝ)) (Real.pi, 2) (Except.ok Real.pi) sdPi
    sdPi_eq
    (by intro th h hd
        cases h
        rw [Real.cos_pi]
        norm_num)

/-- Claim C7: solving (A, B) and solving (A, B') with B' the horizontal mirror
of B about A yields a solution whose straight and cycloid travel times, cycloid
radius and cycloid angle are identical, and whose cycloid polyline is the
pointwise horizontal mirror about A's x-coordinate of the original one. -/
theorem solve_mirror_symmetry (A B : ℝ × ℝ) (fr : Except Unit ℝ) (sd : PathSolution)
    (hsd : calculate_paths A B fr = some sd) :
    ∃ sd', calculate_paths A (2 * A.1 - B.1, B.2) fr = some sd' ∧
      sd'.line_t = sd.line_t ∧
      sd'.cycloid_t = sd.cycloid_t ∧
      sd'.cycloid_r = sd.cycloid_r ∧
      sd'.cycloid_theta_b = sd.cycloid_theta_b ∧
      sd'.cycloid_points = sd.cycloid_points.map (fun p => (2 * A.1 - p.1, p.2)) := by
  obtain ⟨hdy, hcase⟩ := calculate_paths_inv A B fr sd hsd
  have hdy' : (0 : ℝ) < ((2 * A.1 - B.1, B.2) : ℝ × ℝ).2 - A.2 := hdy
  have hmir : (2 * A.1 - B.1 : ℝ) - A.1 = -(B.1 - A.1) := by ring
  rcases hcase with ⟨hdx, rfl⟩ | ⟨hdx, theta_b, hfr, rfl⟩
  · refine ⟨degenSolution A (2 * A.1 - B.1, B.2),
      calculate_paths_degen _ _ _ hdy'
        (by show |2 * A.1 - B.1 - A.1| < 1
            rw [hmir, abs_neg]
            exact hdx), ?_, ?_, ?_, ?_, ?_⟩
    · simp only [degenSolution]
      ring_nf
    · simp only [degenSolution]
      ring_nf
    · rfl
    · rfl
    · simp only [degenSolution, List.map_cons, List.map_nil]
      congr 1
      exact Prod.ext_iff.mpr ⟨by ring, rfl⟩
  · subst hfr
    refine ⟨generalSolution A (2 * A.1 - B.1, B.2) theta_b,
      calculate_paths_general _ _ _ hdy'
        (by show (1 : ℝ) ≤ |2 * A.1 - B.1 - A.1|
            rw [hmir, abs_neg]
            exact hdx), ?_, ?_, ?_, ?_, ?_⟩
    · simp only [generalSolution]
      ring_nf
    · rfl
    · rfl
    · rfl
    · simp only [generalSolution, cycloidSamples, List.map_map]
      apply List.map_congr_left
      intro i _
      simp only [Function.comp_apply, hmir, np_sign_neg, Prod.ext_iff]
      exact ⟨by ring, by trivial⟩

/-- Witness for C7 at A = (0,0), B = (0,500). -/
theorem solve_mirror_symmetry_witness :
    ∃ sd', calculate_paths ((0 : ℝ), (0 : ℝ))
        (2 * ((0 : ℝ), (0 : ℝ)).1 - ((0 : ℝ), (500 : ℝ)).1, ((0 : ℝ), (500 : ℝ)).2)
        (Except.error ()) = some sd' ∧
      sd'.line_t = (degenSolution ((0 : ℝ), (0 : ℝ)) ((0 : ℝ), (500 : ℝ))).line_t ∧
      sd'.cycloid_t = (degenSolution ((0 : ℝ), (0 : ℝ)) ((0 : ℝ), (500 : ℝ))).cycloid_t ∧
      sd'.cycloid_r = (degenSolution ((0 : ℝ), (0 : ℝ)) ((0 : ℝ), (500 : ℝ))).cycloid_r ∧
      sd'.cycloid_theta_b
        = (degenSolution ((0 : ℝ), (0 : ℝ)) ((0 : ℝ), (500 : ℝ))).cycloid_theta_b ∧
      sd'.cycloid_points
        = (degenSolution ((0 : ℝ), (0 : ℝ)) ((0 : ℝ), (500 : ℝ))).cycloid_points.map
            (fun p => (2 * ((0 : ℝ), (0 : ℝ)).1 - p.1, p.2)) :=
  solve_mirror_symmetry ((0 : ℝ), (0 : ℝ)) ((0 : ℝ), (500 : ℝ)) (Except.error ())
    (degenSolution ((0 : ℝ), (0 : ℝ)) ((0 : ℝ), (500 : ℝ)))
    (calculate_paths_degen ((0 : ℝ), (0 : ℝ)) ((0 : ℝ), (500 : ℝ)) (Except.error ())
      (by norm_num) (by norm_num))

lemma updateLineBead_even (sd : PathSolution) (t : ℝ) (st : BeadState)
    (hfin : st.finished = false) (ht : t < 0) (hmag : -t < sd.line_t)
    (ha : 0 < sd.line_a) (hL : 0 < sd.line_L) (hdy : 0 < sd.dy) :
    updateLineBead sd t st = updateLineBead sd (-t) st ∧
    sd.A.2 < (updateLineBead sd t st).pos.2 := by
  have ht1 : t < sd.line_t := by linarith
  have ht2 : 0 < t ^ 2 := by nlinarith
  have hfrac : 0 < 0.5 * sd.line_a * t ^ 2 / sd.line_L := by
    apply div_pos
    · nlinarith
    · exact hL
  constructor
  · unfold updateLineBead
    simp only [hfin, Bool.false_eq_true, if_false, if_pos ht1, if_pos hmag, neg_sq]
  · unfold updateLineBead
    simp only [hfin, Bool.false_eq_true, if_false, if_pos ht1]
    have := mul_pos hfrac hdy
    show sd.A.2 < sd.A.2 + 0.5 * sd.line_a * t ^ 2 / sd.line_L * sd.dy
    linarith

lemma updateCycloidBead_even_degen (sd : PathSolution) (t : ℝ) (st : BeadState)
    (hfin : st.finished = false) (ht : t < 0) (hmag : -t < sd.cycloid_t)
    (hinf : sd.cycloid_r.isinf = true) (hdy : 0 < sd.dy) :
    updateCycloidBead sd t st = updateCycloidBead sd (-t) st ∧
    sd.A.2 < (updateCycloidBead sd t st).pos.2 := by
  have ht1 : t < sd.cycloid_t := by linarith
  have ht2 : 0 < t ^ 2 := by nlinarith
  have hfrac : 0 < 0.5 * G * t ^ 2 / sd.dy := by
    apply div_pos
    · nlinarith [G_pos]
    · exact hdy
  constructor
  · unfold updateCycloidBead
    simp only [hfin, Bool.false_eq_true, if_false, if_pos ht1, if_pos hmag, hinf,
      if_true, neg_sq]
  · unfold updateCycloidBead
    simp only [hfin, Bool.false_eq_true, if_false, if_pos ht1, hinf, if_true]
    have := mul_pos hfrac hdy
    show sd.A.2 < sd.A.2 + 0.5 * G * t ^ 2 / sd.dy * sd.dy
    linarith

/-- Claim C10: the straight-path sampler position (and, in the degenerate
case, the cycloid one) is even in elapsed time, because the distance law
`0.5 * a * t^2` is even in `t`; hence a pre-start query at negative `t` with
`|t| < line_t` places the bead strictly past A along the path (its
y-coordinate is strictly below A's) rather than holding it at A. -/
theorem sampleAt_negative_time_even (A B : ℝ × ℝ) (fr : Except Unit ℝ)
    (sd : PathSolution) (t : ℝ) (st : BeadState)
    (hsd : calculate_paths A B fr = some sd) (hfin : st.finished = false)
    (ht : t < 0) (hmag : -t < sd.line_t) :
    (updateLineBead sd t st = updateLineBead sd (-t) st ∧
      sd.A.2 < (updateLineBead sd t st).pos.2) ∧
    (sd.cycloid_r.isinf = true →
      updateCycloidBead sd t st = updateCycloidBead sd (-t) st ∧
      sd.A.2 < (updateCycloidBead sd t st).pos.2) := by
  obtain ⟨hdy, hcase⟩ := calculate_paths_inv A B fr sd hsd
  have hL : 0 < Real.sqrt ((B.1 - A.1) ^ 2 + (B.2 - A.2) ^ 2) :=
    Real.sqrt_pos.mpr (by nlinarith [sq_nonneg (B.1 - A.1), pow_pos hdy 2])
  rcases hcase with ⟨hdx, rfl⟩ | ⟨hdx, theta_b, hfr, rfl⟩
  · constructor
    · exact updateLineBead_even _ t st hfin ht hmag G_pos hL hdy
    · intro hinf
      exact updateCycloidBead_even_degen _ t st hfin ht hmag hinf hdy
  · constructor
    · exact updateLineBead_even _ t st hfin ht hmag
        (div_pos (mul_pos G_pos hdy) hL) hL hdy
    · intro hinf
      simp [generalSolution, PyFloat.isinf] at hinf

/-- The concrete degenerate-case solution for A = (0,0), B = (0,500), used by
witnesses. -/
noncomputable def sdV : PathSolution :=
  degenSolution ((0 : ℝ), (0 : ℝ)) ((0 : ℝ), (500 : ℝ))

lemma sdV_line_t : sdV.line_t = Real.sqrt (1000 / 981) := by
  unfold sdV degenSolution
  show Real.sqrt (2 * Real.sqrt (((0:ℝ) - 0) ^ 2 + ((500:ℝ) - 0) ^ 2) / G) = _
  rw [show (((0:ℝ) - 0) ^ 2 + ((500:ℝ) - 0) ^ 2) = 500 ^ 2 by norm_num,
    Real.sqrt_sq (by norm_num : (0:ℝ) ≤ 500)]
  unfold G
  norm_num

/-- Witness for C10 on `sdV` at elapsed time -1/2. -/
theorem sampleAt_negative_time_even_witness :
    (updateLineBead sdV (-(1/2)) ⟨false, ((0 : ℝ), (0 : ℝ))⟩
        = updateLineBead sdV (-(-(1/2))) ⟨false, ((0 : ℝ), (0 : ℝ))⟩ ∧
      sdV.A.2 < (updateLineBead sdV (-(1/2)) ⟨false, ((0 : ℝ), (0 : ℝ))⟩).pos.2) ∧
    (sdV.cycloid_r.isinf = true →
      updateCycloidBead sdV (-(1/2)) ⟨false, ((0 : ℝ), (0 : ℝ))⟩
          = updateCycloidBead sdV (-(-(1/2))) ⟨false, ((0 : ℝ), (0 : ℝ))⟩ ∧
      sdV.A.2 < (updateCycloidBead sdV (-(1/2)) ⟨false, ((0 : ℝ), (0 : ℝ))⟩).pos.2) :=
  sampleAt_negative_time_even ((0 : ℝ), (0 : ℝ)) ((0 : ℝ), (500 : ℝ)) (Except.error ())
    sdV (-(1/2)) ⟨false, ((0 : ℝ), (0 : ℝ))⟩
    (calculate_paths_degen ((0 : ℝ), (0 : ℝ)) ((0 : ℝ), (500 : ℝ)) (Except.error ())
      (by norm_num) (by norm_num))
    rfl (by norm_num)
    (by
      rw [sdV_line_t, neg_neg]
      rw [Real.lt_sqrt (by norm_num)]
      norm_num)

/-- Claim C8: in the general case, the cycloid polyline is the ordered list of
samples at exactly 100 parameter values uniformly spaced over [0, theta_b]
(the i-th parameter being `theta_b * i / 99`), with
`x = Ax + sign dx * r * (t - sin t)` and `y = Ay + r * (1 - cos t)`; its first
point is A and, since theta_b satisfies the transcendental equation, its last
point is B. -/
theorem cycloid_polyline_samples (A B : ℝ × ℝ) (theta_b : ℝ) (sd : PathSolution)
    (hdy : 0 < B.2 - A.2) (hdx : 1 ≤ |B.1 - A.1|)
    (hroot : theta_b - Real.sin theta_b
      = |B.1 - A.1| / (B.2 - A.2) * (1 - Real.cos theta_b))
    (hcos : Real.cos theta_b < 1)
    (hsd : calculate_paths A B (Except.ok theta_b) = some sd) :
    sd.cycloid_points.length = 100 ∧
    (∀ i : ℕ, i < 100 → sd.cycloid_points[i]? =
      some (A.1 + np_sign (B.1 - A.1) * ((B.2 - A.2) / (1 - Real.cos theta_b))
              * (theta_b * (i : ℝ) / 99 - Real.sin (theta_b * (i : ℝ) / 99)),
            A.2 + (B.2 - A.2) / (1 - Real.cos theta_b)
              * (1 - Real.cos (theta_b * (i : ℝ) / 99)))) ∧
    sd.cycloid_points.head? = some A ∧
    sd.cycloid_points.getLast? = some B := by
  rw [calculate_paths_general A B theta_b hdy hdx] at hsd
  cases Option.some_injective _ hsd
  have h1c : (1 : ℝ) - Real.cos theta_b ≠ 0 := by linarith
  have hdyne : B.2 - A.2 ≠ 0 := ne_of_gt hdy
  refine ⟨?_, ?_, ?_, ?_⟩
  · show (cycloidSamples A (B.1 - A.1) ((B.2 - A.2) / (1 - Real.cos theta_b))
      theta_b).length = 100
    unfold cycloidSamples
    rw [List.length_map, List.length_range]
  · intro i hi
    show (cycloidSamples A (B.1 - A.1) ((B.2 - A.2) / (1 - Real.cos theta_b))
      theta_b)[i]? = _
    unfold cycloidSamples
    rw [List.getElem?_map, List.getElem?_range hi]
    rfl
  · show (cycloidSamples A (B.1 - A.1) ((B.2 - A.2) / (1 - Real.cos theta_b))
      theta_b).head? = some A
    unfold cycloidSamples
    rw [show (100 : ℕ) = 99 + 1 from rfl, List.range_succ_eq_map]
    simp [Real.sin_zero, Real.cos_zero]
  · show (cycloidSamples A (B.1 - A.1) ((B.2 - A.2) / (1 - Real.cos theta_b))
      theta_b).getLast? = some B
    unfold cycloidSamples
    rw [show (100 : ℕ) = 99 + 1 from rfl, List.range_succ, List.map_append]
    simp only [List.map_cons, List.map_nil]
    rw [List.getLast?_concat]
    congr 1
    have hθ99 : theta_b * ((99 : ℕ) : ℝ) / 99 = theta_b := by push_cast; ring
    rw [hθ99]
    have e2 : (B.2 - A.2) / (1 - Real.cos theta_b)
        * (|B.1 - A.1| / (B.2 - A.2) * (1 - Real.cos theta_b)) = |B.1 - A.1| := by
      field_simp
      ring
    refine Prod.ext_iff.mpr ⟨?_, ?_⟩
    · show A.1 + np_sign (B.1 - A.1) * ((B.2 - A.2) / (1 - Real.cos theta_b))
        * (theta_b - Real.sin theta_b) = B.1
      rw [hroot, mul_assoc, e2, np_sign_mul_abs]
      ring
    · show A.2 + (B.2 - A.2) / (1 - Real.cos theta_b) * (1 - Real.cos theta_b) = B.2
      rw [div_mul_cancel₀ _ h1c]
      ring

/-- Witness for C8 on the concrete general-case solution `sdPi`. -/
theorem cycloid_polyline_samples_witness :
    sdPi.cycloid_points.length = 100 ∧
    sdPi.cycloid_points.head? = some ((0 : ℝ), (0 : ℝ)) ∧
    sdPi.cycloid_points.getLast? = some (Real.pi, (2 : ℝ)) := by
  have h := cycloid_polyline_samples ((0 : ℝ), (0 : ℝ)) (Real.pi, 2) Real.pi sdPi
    (by norm_num)
    (by simp only [sub_zero, abs_of_pos Real.pi_pos]; linarith [Real.pi_gt_three])
    pi_root
    (by rw [Real.cos_pi]; norm_num)
    sdPi_eq
  exact ⟨h.1, h.2.2.1, h.2.2.2⟩

lemma cycloid_time_key (θ : ℝ) :
    θ ^ 2 * (1 - Real.cos θ) ≤ 2 * (1 - Real.cos θ) ^ 2 + 2 * (θ - Real.sin θ) ^ 2 := by
  have h2 : 2 * (θ / 2) = θ := by ring
  have hc := Real.cos_two_mul (θ / 2)
  have hs := Real.sin_two_mul (θ / 2)
  rw [h2] at hc hs
  have hp := Real.sin_sq_add_cos_sq (θ / 2)
  rw [hc, hs]
  nlinarith [sq_nonneg (Real.sin (θ / 2) - θ / 2 * Real.cos (θ / 2)), hp,
    sq_nonneg (Real.sin (θ / 2)), sq_nonneg (Real.cos (θ / 2)), sq_nonneg θ]

/-- Claim C9: in the general case, with theta_b the physically relevant root
(positive, with `cos theta_b < 1`) of the transcendental equation, both travel
times are strictly positive and `cycloid_t <= line_t` (brachistochrone
optimality), as an exact real inequality. -/
theorem cycloid_not_slower (A B : ℝ × ℝ) (theta_b : ℝ) (sd : PathSolution)
    (hdy : 0 < B.2 - A.2) (hdx : 1 ≤ |B.1 - A.1|)
    (hroot : theta_b - Real.sin theta_b
      = |B.1 - A.1| / (B.2 - A.2) * (1 - Real.cos theta_b))
    (hθ : 0 < theta_b) (hcos : Real.cos theta_b < 1)
    (hsd : calculate_paths A B (Except.ok theta_b) = some sd) :
    0 < sd.cycloid_t ∧ 0 < sd.line_t ∧ sd.cycloid_t ≤ sd.line_t := by
  rw [calculate_paths_general A B theta_b hdy hdx] at hsd
  cases Option.some_injective _ hsd
  have h1c : (0 : ℝ) < 1 - Real.cos theta_b := by linarith
  have hdyne : B.2 - A.2 ≠ 0 := ne_of_gt hdy
  have hr : 0 < (B.2 - A.2) / (1 - Real.cos theta_b) := div_pos hdy h1c
  have hsum : (0 : ℝ) < (B.1 - A.1) ^ 2 + (B.2 - A.2) ^ 2 := by
    nlinarith [sq_nonneg (B.1 - A.1), pow_pos hdy 2]
  have hL : 0 < Real.sqrt ((B.1 - A.1) ^ 2 + (B.2 - A.2) ^ 2) :=
    Real.sqrt_pos.mpr hsum
  have hL2 : Real.sqrt ((B.1 - A.1) ^ 2 + (B.2 - A.2) ^ 2) ^ 2
      = (B.1 - A.1) ^ 2 + (B.2 - A.2) ^ 2 := Real.sq_sqrt (le_of_lt hsum)
  have ha : 0 < G * (B.2 - A.2) / Real.sqrt ((B.1 - A.1) ^ 2 + (B.2 - A.2) ^ 2) :=
    div_pos (mul_pos G_pos hdy) hL
  refine ⟨?_, ?_, ?_⟩
  · show 0 < theta_b * Real.sqrt ((B.2 - A.2) / (1 - Real.cos theta_b) / G)
    exact mul_pos hθ (Real.sqrt_pos.mpr (div_pos hr G_pos))
  · show 0 < Real.sqrt (2 * Real.sqrt ((B.1 - A.1) ^ 2 + (B.2 - A.2) ^ 2) /
      (G * (B.2 - A.2) / Real.sqrt ((B.1 - A.1) ^ 2 + (B.2 - A.2) ^ 2)))
    exact Real.sqrt_pos.mpr (div_pos (by linarith) ha)
  · show theta_b * Real.sqrt ((B.2 - A.2) / (1 - Real.cos theta_b) / G)
      ≤ Real.sqrt (2 * Real.sqrt ((B.1 - A.1) ^ 2 + (B.2 - A.2) ^ 2) /
          (G * (B.2 - A.2) / Real.sqrt ((B.1 - A.1) ^ 2 + (B.2 - A.2) ^ 2)))
    have hLHS : theta_b * Real.sqrt ((B.2 - A.2) / (1 - Real.cos theta_b) / G)
        = Real.sqrt (theta_b ^ 2 * ((B.2 - A.2) / (1 - Real.cos theta_b) / G)) := by
      rw [Real.sqrt_mul (sq_nonneg theta_b), Real.sqrt_sq (le_of_lt hθ)]
    rw [hLHS]
    apply Real.sqrt_le_sqrt
    have hRHS : 2 * Real.sqrt ((B.1 - A.1) ^ 2 + (B.2 - A.2) ^ 2) /
        (G * (B.2 - A.2) / Real.sqrt ((B.1 - A.1) ^ 2 + (B.2 - A.2) ^ 2))
        = 2 * ((B.1 - A.1) ^ 2 + (B.2 - A.2) ^ 2) / (G * (B.2 - A.2)) := by
      rw [div_div_eq_mul_div, mul_assoc, Real.mul_self_sqrt (le_of_lt hsum)]
    rw [hRHS]
    have hdxc : (theta_b - Real.sin theta_b) * (B.2 - A.2)
        = |B.1 - A.1| * (1 - Real.cos theta_b) := by
      rw [hroot]
      field_simp
    have e1 : (B.2 - A.2) ^ 2 * (theta_b - Real.sin theta_b) ^ 2
        = (B.1 - A.1) ^ 2 * (1 - Real.cos theta_b) ^ 2 := by
      have h2 := congrArg (fun z : ℝ => z ^ 2) hdxc
      simp only [mul_pow] at h2
      rw [sq_abs] at h2
      linear_combination h2
    have hkey := cycloid_time_key theta_b
    have h3 : theta_b ^ 2 * (1 - Real.cos theta_b) * (B.2 - A.2) ^ 2
        ≤ 2 * (1 - Real.cos theta_b) ^ 2 * ((B.1 - A.1) ^ 2 + (B.2 - A.2) ^ 2) := by
      nlinarith [mul_le_mul_of_nonneg_right hkey (sq_nonneg (B.2 - A.2)), e1]
    have h3' : (1 - Real.cos theta_b) * (theta_b ^ 2 * (B.2 - A.2) ^ 2)
        ≤ (1 - Real.cos theta_b)
          * (2 * (1 - Real.cos theta_b) * ((B.1 - A.1) ^ 2 + (B.2 - A.2) ^ 2)) := by
      ring_nf
      ring_nf at h3
      linarith [h3]
    have h4 := le_of_mul_le_mul_left h3' h1c
    rw [div_div, ← mul_div_assoc,
      div_le_div_iff₀ (mul_pos h1c G_pos) (mul_pos G_pos hdy)]
    have h5 := mul_le_mul_of_nonneg_left h4 (le_of_lt G_pos)
    ring_nf
    ring_nf at h5
    linarith [h5]

/-- Witness for C9 on the concrete general-case solution `sdPi`. -/
theorem cycloid_not_slower_witness :
    0 < sdPi.cycloid_t ∧ 0 < sdPi.line_t ∧ sdPi.cycloid_t ≤ sdPi.line_t :=
  cycloid_not_slower ((0 : ℝ), (0 : ℝ)) (Real.pi, 2) Real.pi sdPi
    (by norm_num)
    (by simp only [sub_zero, abs_of_pos Real.pi_pos]; linarith [Real.pi_gt_three])
    pi_root Real.pi_pos
    (by rw [Real.cos_pi]; norm_num)
    sdPi_eq

end Brach
